import Mathlib

/-!
Shallow embedding of the BookLibary Flask application (src/main.py).

The application keeps two tables (users, books) and exposes routes
register, login, logout, home (list), add, edit, delete.  Each route
handler is modelled as a pure function from the store and the session
to a new store, a new session, an HTTP response and the list of flashed
messages.

Third-party behaviour that the handlers rely on is modelled explicitly:
* `generate_password_hash` / `check_password_hash` (werkzeug) are passed
  as function parameters `hashFn` / `checkHash`;
* the wtforms `Email()` format validator verdict is carried in the form
  input as a boolean field `emailFormatOk`;
* a wtforms `DataRequired()` validator on a string field fails exactly
  when the string is empty or whitespace-only (falsy or blank), and on a
  `FloatField` it fails when parsing failed (data `None`) or the parsed
  value is the falsy float `0.0`;
* `float(...)` parsing in the edit handler is modelled by an
  `Option ℚ` argument (`none` = `ValueError` / `TypeError`);
* `scalar()` returns the first matching row or none (`List.find?`);
  `scalar_one_or_none()` returns the sole match, none when there is no
  match, and raises when several rows match (modelled by a `serverError`
  response).
-/

/-- A row of the user table: id (primary key), unique email, stored
password (a hash), display name. -/
structure User where
  id : Nat
  email : String
  password : String
  name : String
deriving Repr, DecidableEq

/-- A row of the book table: id (primary key), title, author, numeric
rating, owning user id (foreign key). -/
structure Book where
  id : Nat
  title : String
  author : String
  rating : ℚ
  user_id : Nat
deriving Repr, DecidableEq

/-- The persistent store: the two tables plus the next auto-increment
primary key of each. -/
structure Store where
  users : List User
  books : List Book
  nextUserId : Nat
  nextBookId : Nat
deriving Repr, DecidableEq

/-- The response produced by a request handler. -/
inductive Response where
  | redirectHome
  | redirectLogin
  | renderRegister
  | renderLogin
  | renderIndex (books : List Book)
  | renderAdd
  | renderEdit (book : Book)
  | serverError
deriving Repr, DecidableEq

/-- Outcome of one request: the store afterwards, the session afterwards
(the logged-in user id held by the session cookie, if any), the response,
and the messages flashed during the request. -/
structure Result where
  store : Store
  session : Option Nat
  response : Response
  flash : List String
deriving Repr, DecidableEq

/-- The flash message emitted by flask-login when `@login_required`
rejects an unauthenticated request. -/
def loginRequiredMsg : String := "Please log in to access this page."

/-- The check a wtforms `DataRequired()` validator performs on a string
field: the value must be truthy and not whitespace-only, i.e. contain at
least one non-whitespace character. -/
def hasContent (s : String) : Bool :=
  s.toList.any (fun c => !c.isWhitespace)

/-- Resolution of the session to a user (`load_user`): the session id is
looked up in the user table; a missing or dangling id means the request
is unauthenticated (`current_user.is_authenticated` is false). -/
def currentUser (s : Store) (sess : Option Nat) : Option User :=
  match sess with
  | none => none
  | some uid => s.users.find? (fun u => u.id == uid)

/-- Lookup of a user row by email (`scalar()` returns the first matching
row or none). -/
def findUserByEmail (s : Store) (email : String) : Option User :=
  s.users.find? (fun u => u.email == email)

/-- Lookup of a book row by id and owner
(`select(Book).where(Book.id == book_id, Book.user_id == current_user.id)`,
then `scalar()`). -/
def findBook (s : Store) (bid uid : Nat) : Option Book :=
  s.books.find? (fun b => b.id == bid && b.user_id == uid)

/-- The submitted registration form.  `emailFormatOk` is the verdict of
the third-party wtforms `Email()` validator on the email field. -/
structure RegisterInput where
  name : String
  email : String
  password : String
  emailFormatOk : Bool
deriving Repr, DecidableEq

/-- Validation of `RegisterForm`: name has `DataRequired()` and
`Length(min=2, max=100)`, email has `DataRequired()` and `Email()`,
password has `DataRequired()` and `Length(min=6)`.  `DataRequired()` on
a string field fails on an empty or whitespace-only value. -/
def registerFormValid (inp : RegisterInput) : Bool :=
  hasContent inp.name && decide (2 ≤ inp.name.length) && decide (inp.name.length ≤ 100) &&
  hasContent inp.email && inp.emailFormatOk &&
  hasContent inp.password && decide (6 ≤ inp.password.length)

/-- The submitted login form. -/
structure LoginInput where
  email : String
  password : String
  emailFormatOk : Bool
deriving Repr, DecidableEq

/-- Validation of `LoginForm`: email has `DataRequired()` and `Email()`,
password has `DataRequired()`. -/
def loginFormValid (inp : LoginInput) : Bool :=
  hasContent inp.email && inp.emailFormatOk && hasContent inp.password

/-- The submitted add-book form.  `rating` is the value parsed by the
wtforms `FloatField` (`none` when the raw input does not parse as a
number, or the field is absent). -/
structure BookInput where
  title : String
  author : String
  rating : Option ℚ
deriving Repr, DecidableEq

/-- Validation of `BookForm`: title and author have `DataRequired()`;
rating has `DataRequired()` and `NumberRange(min=0, max=10)`.
`DataRequired()` on the `FloatField` fails when parsing failed or when
the parsed value is the falsy float `0.0`, so a submitted rating of `0`
is rejected even though it lies inside the `NumberRange` bounds. -/
def bookFormValid (inp : BookInput) : Bool :=
  hasContent inp.title && hasContent inp.author &&
    (match inp.rating with
     | some r => decide (r ≠ 0) && decide (0 ≤ r) && decide (r ≤ 10)
     | none => false)

/-- The `register` handler.  On a valid submission: if a user with the
email exists, flash and redirect to login; otherwise insert a new user
whose stored password is `hashFn` of the submitted password, log the new
user in, and redirect home.  Otherwise render the form. -/
def register (hashFn : String → String) (s : Store) (sess : Option Nat)
    (inp : RegisterInput) : Result :=
  if registerFormValid inp then
    match findUserByEmail s inp.email with
    | some _ =>
        ⟨s, sess, .redirectLogin, ["Email already registered. Please login."]⟩
    | none =>
        ⟨{ s with users := s.users ++ [⟨s.nextUserId, inp.email, hashFn inp.password, inp.name⟩],
                  nextUserId := s.nextUserId + 1 },
         some s.nextUserId, .redirectHome, []⟩
  else ⟨s, sess, .renderRegister, []⟩

/-- The `login` handler.  On a valid submission: look up the user by
email; if found and `checkHash` accepts the stored hash against the
submitted password, establish the session and redirect home; otherwise
flash and redirect to login.  Otherwise render the form. -/
def login (checkHash : String → String → Bool) (s : Store) (sess : Option Nat)
    (inp : LoginInput) : Result :=
  if loginFormValid inp then
    match findUserByEmail s inp.email with
    | some u =>
        if checkHash u.password inp.password then
          ⟨s, some u.id, .redirectHome, []⟩
        else ⟨s, sess, .redirectLogin, ["Invalid email or password"]⟩
    | none => ⟨s, sess, .redirectLogin, ["Invalid email or password"]⟩
  else ⟨s, sess, .renderLogin, []⟩

/-- The `logout` handler (`@login_required`): clears the session and
redirects to login. -/
def logout (s : Store) (sess : Option Nat) : Result :=
  match currentUser s sess with
  | none => ⟨s, sess, .redirectLogin, [loginRequiredMsg]⟩
  | some _ => ⟨s, none, .redirectLogin, []⟩

/-- The `home` handler: when authenticated, lists the books owned by the
current user; otherwise renders the empty list. -/
def home (s : Store) (sess : Option Nat) : Result :=
  match currentUser s sess with
  | some u => ⟨s, sess, .renderIndex (s.books.filter (fun b => b.user_id == u.id)), []⟩
  | none => ⟨s, sess, .renderIndex [], []⟩

/-- The `add` handler (`@login_required`).  On a valid submission, the
store is searched for any book with the submitted title
(`scalar_one_or_none`): no match inserts a new book owned by the current
user; one match silently skips creation; several matches raise
(`MultipleResultsFound`).  Either way of the first two, redirect home. -/
def add (s : Store) (sess : Option Nat) (inp : BookInput) : Result :=
  match currentUser s sess with
  | none => ⟨s, sess, .redirectLogin, [loginRequiredMsg]⟩
  | some u =>
    if bookFormValid inp then
      match inp.rating with
      | some r =>
        match s.books.filter (fun b => b.title == inp.title) with
        | [] =>
            ⟨{ s with books := s.books ++ [⟨s.nextBookId, inp.title, inp.author, r, u.id⟩],
                      nextBookId := s.nextBookId + 1 },
             sess, .redirectHome, []⟩
        | [_] => ⟨s, sess, .redirectHome, []⟩
        | _ => ⟨s, sess, .serverError, []⟩
      | none => ⟨s, sess, .renderAdd, []⟩
    else ⟨s, sess, .renderAdd, []⟩

/-- An edit request: a GET, or a POST carrying the result of
`float(request.form.get('rating'))` (`none` when that raises
`ValueError` or `TypeError`). -/
inductive EditReq where
  | get
  | post (rating : Option ℚ)
deriving Repr, DecidableEq

/-- In-place update of the rating of the first book matching id and
owner (the row object returned by `scalar()` is mutated and committed). -/
def updateRating : List Book → Nat → Nat → ℚ → List Book
  | [], _, _, _ => []
  | b :: rest, bid, uid, r =>
      if b.id == bid && b.user_id == uid then { b with rating := r } :: rest
      else b :: updateRating rest bid uid r

/-- Removal of the first book matching id and owner (the row object
returned by `scalar()` is deleted and the deletion committed). -/
def deleteBook : List Book → Nat → Nat → List Book
  | [], _, _ => []
  | b :: rest, bid, uid =>
      if b.id == bid && b.user_id == uid then rest
      else b :: deleteBook rest bid uid

/-- The `edit` handler (`@login_required`).  The book is resolved by id
and current-user ownership; no match flashes and redirects home.  On a
POST whose rating parses and lies in `[0, 10]` the rating is updated and
the request redirects home; otherwise (parse failure, out of range, or a
GET) the edit form is rendered and nothing changes. -/
def edit (s : Store) (sess : Option Nat) (bid : Nat) (req : EditReq) : Result :=
  match currentUser s sess with
  | none => ⟨s, sess, .redirectLogin, [loginRequiredMsg]⟩
  | some u =>
    match findBook s bid u.id with
    | none => ⟨s, sess, .redirectHome, ["Book not found or access denied"]⟩
    | some b =>
      match req with
      | .get => ⟨s, sess, .renderEdit b, []⟩
      | .post none => ⟨s, sess, .renderEdit b, []⟩
      | .post (some r) =>
          if 0 ≤ r ∧ r ≤ 10 then
            ⟨{ s with books := updateRating s.books bid u.id r }, sess, .redirectHome, []⟩
          else ⟨s, sess, .renderEdit b, []⟩

/-- The `delete` handler (`@login_required`).  The book is resolved by
id and current-user ownership; no match flashes and redirects home;
otherwise the book is removed and the request redirects home. -/
def delete (s : Store) (sess : Option Nat) (bid : Nat) : Result :=
  match currentUser s sess with
  | none => ⟨s, sess, .redirectLogin, [loginRequiredMsg]⟩
  | some u =>
    match findBook s bid u.id with
    | none => ⟨s, sess, .redirectHome, ["Book not found or access denied"]⟩
    | some _ =>
        ⟨{ s with books := deleteBook s.books bid u.id }, sess, .redirectHome, []⟩

/-- One HTTP request to the application, with its form payload. -/
inductive Request where
  | registerR (inp : RegisterInput)
  | loginR (inp : LoginInput)
  | logoutR
  | homeR
  | addR (inp : BookInput)
  | editR (bid : Nat) (req : EditReq)
  | deleteR (bid : Nat)
deriving Repr, DecidableEq

/-- Dispatch of one request to its handler. -/
def step (hashFn : String → String) (checkHash : String → String → Bool)
    (s : Store) (sess : Option Nat) : Request → Result
  | .registerR inp => register hashFn s sess inp
  | .loginR inp => login checkHash s sess inp
  | .logoutR => logout s sess
  | .homeR => home s sess
  | .addR inp => add s sess inp
  | .editR bid req => edit s sess bid req
  | .deleteR bid => delete s sess bid

/-- Execution of a sequence of requests, threading store and session. -/
def run (hashFn : String → String) (checkHash : String → String → Bool) :
    List Request → Store × Option Nat → Store × Option Nat
  | [], p => p
  | rq :: rest, (s, sess) =>
      let res := step hashFn checkHash s sess rq
      run hashFn checkHash rest (res.store, res.session)

/-- No two book rows share a title.  The add handler establishes and
preserves this store-wide (its duplicate-title check), and it is what
makes `scalar_one_or_none` safe there. -/
def TitlesDistinct (books : List Book) : Prop :=
  books.Pairwise (fun a b => a.title ≠ b.title)

/-- No two user rows share an email (the `unique=True` column
constraint, re-established by the register handler's duplicate check). -/
def EmailsUnique (users : List User) : Prop :=
  users.Pairwise (fun a b => a.email ≠ b.email)

/-! ## Helper lemmas -/

/-- A successful `find?` splits its list at the first match. -/
theorem find?_split {α : Type} (p : α → Bool) (l : List α) (b : α)
    (h : l.find? p = some b) :
    ∃ l1 l2, l = l1 ++ b :: l2 ∧ (∀ x ∈ l1, p x = false) ∧ p b = true := by
  induction l with
  | nil => simp at h
  | cons a t ih =>
      cases hpa : p a with
      | true =>
          rw [List.find?_cons_of_pos _ hpa, Option.some_inj] at h
          exact ⟨[], t, by simp [h], by simp, h ▸ hpa⟩
      | false =>
          rw [List.find?_cons_of_neg _ (by simp [hpa])] at h
          obtain ⟨l1, l2, he, hl1, hb⟩ := ih h
          refine ⟨a :: l1, l2, by simp [he], ?_, hb⟩
          intro x hx
          rcases List.mem_cons.mp hx with hx | hx
          · exact hx ▸ hpa
          · exact hl1 x hx

/-- Updating the rating at a decomposition whose prefix has no match. -/
theorem updateRating_split (l1 l2 : List Book) (b : Book) (bid uid : Nat) (r : ℚ)
    (hl1 : ∀ x ∈ l1, (x.id == bid && x.user_id == uid) = false)
    (hb : (b.id == bid && b.user_id == uid) = true) :
    updateRating (l1 ++ b :: l2) bid uid r = l1 ++ { b with rating := r } :: l2 := by
  induction l1 with
  | nil => simp [updateRating, hb]
  | cons a t ih =>
      have ha := hl1 a (List.mem_cons_self a t)
      simp only [List.cons_append, updateRating, ha, Bool.false_eq_true, if_false]
      exact congrArg (fun l => a :: l) (ih (fun x hx => hl1 x (List.mem_cons_of_mem a hx)))

/-- Deleting the book at a decomposition whose prefix has no match. -/
theorem deleteBook_split (l1 l2 : List Book) (b : Book) (bid uid : Nat)
    (hl1 : ∀ x ∈ l1, (x.id == bid && x.user_id == uid) = false)
    (hb : (b.id == bid && b.user_id == uid) = true) :
    deleteBook (l1 ++ b :: l2) bid uid = l1 ++ l2 := by
  induction l1 with
  | nil => simp [deleteBook, hb]
  | cons a t ih =>
      have ha := hl1 a (List.mem_cons_self a t)
      simp only [List.cons_append, deleteBook, ha, Bool.false_eq_true, if_false]
      exact congrArg (fun l => a :: l) (ih (fun x hx => hl1 x (List.mem_cons_of_mem a hx)))

/-! ## Claims -/

/-- C1: an Edit or Delete request for a book id that no book owned by
the current user carries (the book is missing or belongs to another
user) flashes the single non-distinguishing message and redirects home,
leaving the store (in particular every book) and the session unchanged. -/
theorem edit_delete_unmatched_book_rejected
    (s : Store) (sess : Option Nat) (u : User) (bid : Nat) (req : EditReq)
    (hcu : currentUser s sess = some u)
    (hmiss : ∀ b ∈ s.books, ¬(b.id = bid ∧ b.user_id = u.id)) :
    edit s sess bid req = ⟨s, sess, .redirectHome, ["Book not found or access denied"]⟩ ∧
    delete s sess bid = ⟨s, sess, .redirectHome, ["Book not found or access denied"]⟩ := by
  have hf : findBook s bid u.id = none := by
    unfold findBook
    rw [List.find?_eq_none]
    intro x hx
    simpa using hmiss x hx
  constructor
  · simp [edit, hcu, hf]
  · simp [delete, hcu, hf]

/-- C1 witness: a store holding one book of user 2; user 1 edits and
deletes it by id, and both fail without touching the store. -/
theorem edit_delete_unmatched_book_rejected_witness :
    edit ⟨[⟨1, "a@x.com", "h1", "A"⟩, ⟨2, "b@x.com", "h2", "B"⟩],
          [⟨7, "Dune", "Herbert", 9, 2⟩], 3, 8⟩ (some 1) 7 .get
      = ⟨⟨[⟨1, "a@x.com", "h1", "A"⟩, ⟨2, "b@x.com", "h2", "B"⟩],
          [⟨7, "Dune", "Herbert", 9, 2⟩], 3, 8⟩, some 1, .redirectHome,
          ["Book not found or access denied"]⟩ ∧
    delete ⟨[⟨1, "a@x.com", "h1", "A"⟩, ⟨2, "b@x.com", "h2", "B"⟩],
          [⟨7, "Dune", "Herbert", 9, 2⟩], 3, 8⟩ (some 1) 7
      = ⟨⟨[⟨1, "a@x.com", "h1", "A"⟩, ⟨2, "b@x.com", "h2", "B"⟩],
          [⟨7, "Dune", "Herbert", 9, 2⟩], 3, 8⟩, some 1, .redirectHome,
          ["Book not found or access denied"]⟩ :=
  edit_delete_unmatched_book_rejected _ _ ⟨1, "a@x.com", "h1", "A"⟩ 7 .get
    (by decide) (by decide)

/-- C2: without an authenticated session (no session id, or a dangling
one), the home listing renders the empty sequence and Add, Edit, Delete
each redirect to login, none of them changing the store or the
session. -/
theorem unauthenticated_requests_do_not_mutate
    (s : Store) (sess : Option Nat) (inp : BookInput) (bid : Nat) (req : EditReq)
    (h : currentUser s sess = none) :
    home s sess = ⟨s, sess, .renderIndex [], []⟩ ∧
    add s sess inp = ⟨s, sess, .redirectLogin, [loginRequiredMsg]⟩ ∧
    edit s sess bid req = ⟨s, sess, .redirectLogin, [loginRequiredMsg]⟩ ∧
    delete s sess bid = ⟨s, sess, .redirectLogin, [loginRequiredMsg]⟩ := by
  refine ⟨?_, ?_, ?_, ?_⟩
  · simp [home, h]
  · simp [add, h]
  · simp [edit, h]
  · simp [delete, h]

/-- C2 witness: an anonymous visitor against a store with one user and
one book: listing is empty, and the three mutators redirect to login
with everything unchanged. -/
theorem unauthenticated_requests_do_not_mutate_witness :
    home ⟨[⟨1, "a@x.com", "h1", "A"⟩], [⟨7, "Dune", "Herbert", 9, 1⟩], 2, 8⟩ none
      = ⟨⟨[⟨1, "a@x.com", "h1", "A"⟩], [⟨7, "Dune", "Herbert", 9, 1⟩], 2, 8⟩,
         none, .renderIndex [], []⟩ ∧
    add ⟨[⟨1, "a@x.com", "h1", "A"⟩], [⟨7, "Dune", "Herbert", 9, 1⟩], 2, 8⟩ none
        ⟨"Emma", "Austen", some 8⟩
      = ⟨⟨[⟨1, "a@x.com", "h1", "A"⟩], [⟨7, "Dune", "Herbert", 9, 1⟩], 2, 8⟩,
         none, .redirectLogin, [loginRequiredMsg]⟩ ∧
    edit ⟨[⟨1, "a@x.com", "h1", "A"⟩], [⟨7, "Dune", "Herbert", 9, 1⟩], 2, 8⟩ none 7
        (.post (some 1))
      = ⟨⟨[⟨1, "a@x.com", "h1", "A"⟩], [⟨7, "Dune", "Herbert", 9, 1⟩], 2, 8⟩,
         none, .redirectLogin, [loginRequiredMsg]⟩ ∧
    delete ⟨[⟨1, "a@x.com", "h1", "A"⟩], [⟨7, "Dune", "Herbert", 9, 1⟩], 2, 8⟩ none 7
      = ⟨⟨[⟨1, "a@x.com", "h1", "A"⟩], [⟨7, "Dune", "Herbert", 9, 1⟩], 2, 8⟩,
         none, .redirectLogin, [loginRequiredMsg]⟩ :=
  unauthenticated_requests_do_not_mutate _ none ⟨"Emma", "Austen", some 8⟩ 7
    (.post (some 1)) (by decide)

/-- C3: the claim that on both Add and Edit a rating is accepted exactly
when it parses as a number in the closed interval `[0, 10]` fails on the
Add side at rating `0`: `0` lies in the interval and the Edit handler
accepts it, but `BookForm` validation rejects it (its `DataRequired()`
validator treats the falsy parsed float `0.0` as missing), so the add
form re-renders and no book is created, contradicting the claim and the
`NumberRange(min=0, max=10)` bounds the form itself declares. -/
theorem add_rejects_zero_rating_but_edit_accepts :
    ((0 : ℚ) ≤ 0 ∧ (0 : ℚ) ≤ 10) ∧
    bookFormValid ⟨"Emma", "Austen", some 0⟩ = false ∧
    add ⟨[⟨1, "a@x.com", "h1", "A"⟩], [], 2, 1⟩ (some 1) ⟨"Emma", "Austen", some 0⟩
      = ⟨⟨[⟨1, "a@x.com", "h1", "A"⟩], [], 2, 1⟩, some 1, .renderAdd, []⟩ ∧
    edit ⟨[⟨1, "a@x.com", "h1", "A"⟩], [⟨1, "Dune", "Herbert", 9, 1⟩], 2, 2⟩
        (some 1) 1 (.post (some 0))
      = ⟨⟨[⟨1, "a@x.com", "h1", "A"⟩], [⟨1, "Dune", "Herbert", 0, 1⟩], 2, 2⟩,
         some 1, .redirectHome, []⟩ := by
  exact ⟨by decide, by decide, by decide, by decide⟩

/-- Under distinct titles, filtering by one title yields nothing or a
single book. -/
theorem filter_title_unique (books : List Book) (t : String)
    (hdist : TitlesDistinct books) :
    books.filter (fun b => b.title == t) = [] ∨
    ∃ b, books.filter (fun b2 => b2.title == t) = [b] := by
  induction books with
  | nil => left; rfl
  | cons a rest ih =>
      obtain ⟨ha, hrest⟩ := List.pairwise_cons.mp hdist
      by_cases hat : a.title = t
      · right
        refine ⟨a, ?_⟩
        have hnone : rest.filter (fun b2 => b2.title == t) = [] := by
          rw [List.filter_eq_nil_iff]
          intro x hx
          simp only [beq_iff_eq]
          intro hxt
          exact ha x hx (hat.trans hxt.symm)
        simp [List.filter_cons, hat, hnone]
      · rcases ih hrest with h0 | ⟨b, hb⟩
        · left; simp [List.filter_cons, hat, h0]
        · right; exact ⟨b, by simp [List.filter_cons, hat, hb]⟩

/-- C4: an authenticated Add with a valid form against a store whose
titles are distinct (as every store reachable through the application
is): if any book anywhere in the store carries the submitted title,
whoever owns it, the request just redirects home and the store is
untouched; otherwise exactly the one new book, owned by the current
user, with the submitted title, author and rating, is appended. -/
theorem add_duplicate_title_skips_creation
    (s : Store) (sess : Option Nat) (u : User) (inp : BookInput) (r : ℚ)
    (hcu : currentUser s sess = some u)
    (hv : bookFormValid inp = true)
    (hr : inp.rating = some r)
    (hdist : TitlesDistinct s.books) :
    ((∃ b ∈ s.books, b.title = inp.title) →
        add s sess inp = ⟨s, sess, .redirectHome, []⟩) ∧
    ((∀ b ∈ s.books, b.title ≠ inp.title) →
        add s sess inp =
          ⟨{ s with books := s.books ++ [⟨s.nextBookId, inp.title, inp.author, r, u.id⟩],
                    nextBookId := s.nextBookId + 1 }, sess, .redirectHome, []⟩) := by
  constructor
  · rintro ⟨b, hb, hbt⟩
    have hmem : b ∈ s.books.filter (fun b2 => b2.title == inp.title) :=
      List.mem_filter.mpr ⟨hb, by simp [hbt]⟩
    rcases filter_title_unique s.books inp.title hdist with h0 | ⟨b2, hfil⟩
    · rw [h0] at hmem
      simp at hmem
    · simp [add, hcu, hv, hr, hfil]
  · intro hno
    have hfil : s.books.filter (fun b2 => b2.title == inp.title) = [] := by
      rw [List.filter_eq_nil_iff]
      intro x hx
      simpa using hno x hx
    simp [add, hcu, hv, hr, hfil]

/-- C4 witness: with the single book "Dune" owned by user 1 in the
store, user 1 adding "Dune" again (different author, valid rating)
changes nothing and redirects home. -/
theorem add_duplicate_title_skips_creation_witness :
    add ⟨[⟨1, "a@x.com", "h1", "A"⟩], [⟨1, "Dune", "Herbert", 9, 1⟩], 2, 2⟩
        (some 1) ⟨"Dune", "Someone", some 5⟩
      = ⟨⟨[⟨1, "a@x.com", "h1", "A"⟩], [⟨1, "Dune", "Herbert", 9, 1⟩], 2, 2⟩,
         some 1, .redirectHome, []⟩ :=
  (add_duplicate_title_skips_creation _ _ ⟨1, "a@x.com", "h1", "A"⟩ _ 5
      (by decide) (by decide) rfl (by simp [TitlesDistinct])).1
    ⟨⟨1, "Dune", "Herbert", 9, 1⟩, by simp, rfl⟩

/-- C5: a valid registration whose email some existing user already
holds is rejected with the duplicate notice and a redirect to login —
no user row is created and the session is untouched; a valid
registration with a fresh email appends exactly one user whose stored
password is the hash of the submitted one, logs that user in (the
session becomes the fresh id) and redirects to the home view. -/
theorem register_duplicate_email_rejected
    (hashFn : String → String) (s : Store) (sess : Option Nat) (inp : RegisterInput)
    (hv : registerFormValid inp = true) :
    ((∃ u ∈ s.users, u.email = inp.email) →
        register hashFn s sess inp
          = ⟨s, sess, .redirectLogin, ["Email already registered. Please login."]⟩) ∧
    ((∀ u ∈ s.users, u.email ≠ inp.email) →
        register hashFn s sess inp
          = ⟨{ s with users := s.users ++ [⟨s.nextUserId, inp.email, hashFn inp.password, inp.name⟩],
                      nextUserId := s.nextUserId + 1 },
             some s.nextUserId, .redirectHome, []⟩) := by
  constructor
  · rintro ⟨u, hu, hue⟩
    cases hfe : findUserByEmail s inp.email with
    | some u2 => simp [register, hv, hfe]
    | none =>
        have := List.find?_eq_none.mp hfe u hu
        simp [hue] at this
  · intro hno
    have hfe : findUserByEmail s inp.email = none := by
      unfold findUserByEmail
      rw [List.find?_eq_none]
      intro x hx
      simpa using hno x hx
    simp [register, hv, hfe]

/-- C5 witness: with user A holding a@x.com, registering a@x.com again
is rejected without a new row, and registering b@x.com appends exactly
one hashed-password user and logs it in. -/
theorem register_duplicate_email_rejected_witness :
    register (fun p => String.append "#" p)
        ⟨[⟨1, "a@x.com", "#pw1", "A"⟩], [], 2, 1⟩ none ⟨"Bob", "a@x.com", "secret2", true⟩
      = ⟨⟨[⟨1, "a@x.com", "#pw1", "A"⟩], [], 2, 1⟩, none, .redirectLogin,
         ["Email already registered. Please login."]⟩ ∧
    register (fun p => String.append "#" p)
        ⟨[⟨1, "a@x.com", "#pw1", "A"⟩], [], 2, 1⟩ none ⟨"Bob", "b@x.com", "secret2", true⟩
      = ⟨⟨[⟨1, "a@x.com", "#pw1", "A"⟩, ⟨2, "b@x.com", "#secret2", "Bob"⟩], [], 3, 1⟩,
         some 2, .redirectHome, []⟩ :=
  ⟨(register_duplicate_email_rejected _ _ none ⟨"Bob", "a@x.com", "secret2", true⟩
        (by decide)).1 ⟨⟨1, "a@x.com", "#pw1", "A"⟩, by simp, rfl⟩,
   (register_duplicate_email_rejected _ _ none ⟨"Bob", "b@x.com", "secret2", true⟩
        (by decide)).2 (by decide)⟩

/-- C6: for a valid login submission, the request succeeds (redirects
home) precisely when the email resolves to a user whose stored hash
verifies against the submitted password; a matching user always yields
that exact outcome with the session set to the user's id, and a found
user whose hash check fails yields the invalid-credentials flash, a
redirect to login, and an unchanged store and session. -/
theorem login_succeeds_iff_hash_verifies
    (checkHash : String → String → Bool) (s : Store) (sess : Option Nat) (inp : LoginInput)
    (hv : loginFormValid inp = true) :
    ((login checkHash s sess inp).response = .redirectHome ↔
        ∃ u, findUserByEmail s inp.email = some u ∧ checkHash u.password inp.password = true) ∧
    (∀ u, findUserByEmail s inp.email = some u → checkHash u.password inp.password = true →
        login checkHash s sess inp = ⟨s, some u.id, .redirectHome, []⟩) ∧
    (∀ u, findUserByEmail s inp.email = some u → checkHash u.password inp.password = false →
        login checkHash s sess inp = ⟨s, sess, .redirectLogin, ["Invalid email or password"]⟩) := by
  refine ⟨?_, ?_, ?_⟩
  · constructor
    · intro hr
      cases hfe : findUserByEmail s inp.email with
      | none => simp [login, hv, hfe] at hr
      | some u =>
          cases hc : checkHash u.password inp.password with
          | true => exact ⟨u, rfl, hc⟩
          | false => simp [login, hv, hfe, hc] at hr
    · rintro ⟨u, hfe, hc⟩
      simp [login, hv, hfe, hc]
  · intro u hfe hc
    simp [login, hv, hfe, hc]
  · intro u hfe hc
    simp [login, hv, hfe, hc]

/-- C6 witness: against a store holding user A, a login as A with the
verifying password succeeds and sets the session to A's id, and a login
as A whose password fails verification flashes, redirects to login and
leaves the (absent) session unchanged. -/
theorem login_succeeds_iff_hash_verifies_witness :
    login (fun stored p => stored == String.append "#" p)
        ⟨[⟨1, "a@x.com", "#pw1", "A"⟩], [], 2, 1⟩ none ⟨"a@x.com", "pw1", true⟩
      = ⟨⟨[⟨1, "a@x.com", "#pw1", "A"⟩], [], 2, 1⟩, some 1, .redirectHome, []⟩ ∧
    login (fun stored p => stored == String.append "#" p)
        ⟨[⟨1, "a@x.com", "#pw1", "A"⟩], [], 2, 1⟩ none ⟨"a@x.com", "wrong", true⟩
      = ⟨⟨[⟨1, "a@x.com", "#pw1", "A"⟩], [], 2, 1⟩, none, .redirectLogin,
         ["Invalid email or password"]⟩ :=
  ⟨(login_succeeds_iff_hash_verifies _ _ none ⟨"a@x.com", "pw1", true⟩
        (by decide)).2.1 ⟨1, "a@x.com", "#pw1", "A"⟩ (by decide) (by decide),
   (login_succeeds_iff_hash_verifies _ _ none ⟨"a@x.com", "wrong", true⟩
        (by decide)).2.2 ⟨1, "a@x.com", "#pw1", "A"⟩ (by decide) (by decide)⟩

/-- Only a valid registration with a fresh email touches the user table,
and it appends exactly the one new user row. -/
theorem step_users (hashFn : String → String) (checkHash : String → String → Bool)
    (s : Store) (sess : Option Nat) (rq : Request) :
    (step hashFn checkHash s sess rq).store.users = s.users ∨
    ∃ inp : RegisterInput, rq = .registerR inp ∧ registerFormValid inp = true ∧
      findUserByEmail s inp.email = none ∧
      (step hashFn checkHash s sess rq).store.users
        = s.users ++ [⟨s.nextUserId, inp.email, hashFn inp.password, inp.name⟩] := by
  cases rq with
  | registerR inp =>
      by_cases hv : registerFormValid inp = true
      · cases hfe : findUserByEmail s inp.email with
        | some u => left; simp [step, register, hv, hfe]
        | none => right; exact ⟨inp, rfl, hv, hfe, by simp [step, register, hv, hfe]⟩
      · left; simp [step, register, hv]
  | loginR inp =>
      left
      simp only [step]
      unfold login
      repeat' split
      all_goals rfl
  | logoutR =>
      left
      simp only [step]
      unfold logout
      repeat' split
      all_goals rfl
  | homeR =>
      left
      simp only [step]
      unfold home
      repeat' split
      all_goals rfl
  | addR inp =>
      left
      simp only [step]
      unfold add
      repeat' split
      all_goals rfl
  | editR bid req =>
      left
      simp only [step]
      unfold edit
      repeat' split
      all_goals rfl
  | deleteR bid =>
      left
      simp only [step]
      unfold delete
      repeat' split
      all_goals rfl

/-- C7: starting from a user table in which no two users share an email,
any sequence of requests (register, login, logout, listing, add, edit,
delete) again yields a table with pairwise-distinct emails; moreover the
run only ever appends user rows — existing users are never mutated or
deleted. -/
theorem email_uniqueness_preserved
    (hashFn : String → String) (checkHash : String → String → Bool)
    (reqs : List Request) (s : Store) (sess : Option Nat)
    (h : EmailsUnique s.users) :
    EmailsUnique (run hashFn checkHash reqs (s, sess)).1.users ∧
    ∃ l, (run hashFn checkHash reqs (s, sess)).1.users = s.users ++ l := by
  induction reqs generalizing s sess with
  | nil => exact ⟨h, [], by simp [run]⟩
  | cons rq rest ih =>
      have hstep : EmailsUnique (step hashFn checkHash s sess rq).store.users ∧
          ∃ l0, (step hashFn checkHash s sess rq).store.users = s.users ++ l0 := by
        rcases step_users hashFn checkHash s sess rq with he | ⟨inp, hrq, hv, hfe, he⟩
        · exact ⟨he ▸ h, [], by simp [he]⟩
        · constructor
          · rw [he]
            unfold EmailsUnique at h ⊢
            rw [List.pairwise_append]
            refine ⟨h, List.pairwise_singleton _ _, ?_⟩
            intro a ha b hb
            rw [List.mem_singleton] at hb
            subst hb
            have := List.find?_eq_none.mp hfe a ha
            simpa using this
          · exact ⟨_, he⟩
      obtain ⟨h1, l0, hl0⟩ := hstep
      rw [show run hashFn checkHash (rq :: rest) (s, sess)
            = run hashFn checkHash rest
                ((step hashFn checkHash s sess rq).store,
                 (step hashFn checkHash s sess rq).session) from rfl]
      obtain ⟨hA, l1, hB⟩ := ih _ _ h1
      exact ⟨hA, l0 ++ l1, by rw [hB, hl0, List.append_assoc]⟩

/-- C7 witness: from the empty store, registering a@x.com twice (the
second attempt is the duplicate) still leaves the user table with
pairwise-distinct emails, and the run only appended rows. -/
theorem email_uniqueness_preserved_witness :
    EmailsUnique (run (fun p => String.append "#" p)
        (fun stored p => stored == String.append "#" p)
        [Request.registerR ⟨"Alice", "a@x.com", "secret1", true⟩,
         Request.registerR ⟨"Bob", "a@x.com", "secret2", true⟩]
        (⟨[], [], 1, 1⟩, none)).1.users ∧
    ∃ l, (run (fun p => String.append "#" p)
        (fun stored p => stored == String.append "#" p)
        [Request.registerR ⟨"Alice", "a@x.com", "secret1", true⟩,
         Request.registerR ⟨"Bob", "a@x.com", "secret2", true⟩]
        (⟨[], [], 1, 1⟩, none)).1.users = [] ++ l :=
  email_uniqueness_preserved _ _ _ _ none (by simp [EmailsUnique])

/-- C8: after any run, every user row either already existed at the
start or was created by some registration in the trace, and in the
latter case its stored password field is the hash of that submitted
password — never the plaintext itself (under the assumption, true of
the werkzeug scheme, that a hash differs from its preimage). -/
theorem stored_passwords_are_hashes
    (hashFn : String → String) (checkHash : String → String → Bool)
    (reqs : List Request) (s : Store) (sess : Option Nat)
    (hne : ∀ p, hashFn p ≠ p) :
    ∀ u ∈ (run hashFn checkHash reqs (s, sess)).1.users,
      u ∈ s.users ∨
      ∃ inp : RegisterInput, Request.registerR inp ∈ reqs ∧
        u.password = hashFn inp.password ∧ u.password ≠ inp.password := by
  induction reqs generalizing s sess with
  | nil =>
      intro u hu
      left
      simpa [run] using hu
  | cons rq rest ih =>
      intro u hu
      rw [show run hashFn checkHash (rq :: rest) (s, sess)
            = run hashFn checkHash rest
                ((step hashFn checkHash s sess rq).store,
                 (step hashFn checkHash s sess rq).session) from rfl] at hu
      rcases ih _ _ u hu with hmem | ⟨inp, hin, hp⟩
      · rcases step_users hashFn checkHash s sess rq with he | ⟨inp, hrq, hv, hfe, he⟩
        · left; exact he ▸ hmem
        · rw [he] at hmem
          rcases List.mem_append.mp hmem with h1 | h1
          · left; exact h1
          · right
            rw [List.mem_singleton] at h1
            refine ⟨inp, by simp [hrq], ?_, ?_⟩
            · rw [h1]
            · rw [h1]; exact hne inp.password
      · right; exact ⟨inp, List.mem_cons_of_mem _ hin, hp⟩

/-- C8 witness: registering Alice from the empty store creates the one
user whose stored password is the hash of secret1 and not the plaintext,
for the tagging hash p maps to "#p" which provably differs from every
preimage. -/
theorem stored_passwords_are_hashes_witness :
    (⟨1, "a@x.com", "#secret1", "Alice"⟩ : User) ∈ ([] : List User) ∨
    ∃ inp : RegisterInput,
      Request.registerR inp ∈ [Request.registerR ⟨"Alice", "a@x.com", "secret1", true⟩] ∧
      (⟨1, "a@x.com", "#secret1", "Alice"⟩ : User).password = (fun p => "#" ++ p) inp.password ∧
      (⟨1, "a@x.com", "#secret1", "Alice"⟩ : User).password ≠ inp.password :=
  stored_passwords_are_hashes (fun p => "#" ++ p)
    (fun stored p => stored == "#" ++ p)
    [Request.registerR ⟨"Alice", "a@x.com", "secret1", true⟩] ⟨[], [], 1, 1⟩ none
    (by
      intro p h
      have h2 := congrArg String.length h
      rw [String.length_append] at h2
      have h1 : "#".length = 1 := rfl
      omega)
    ⟨1, "a@x.com", "#secret1", "Alice"⟩ (by decide)

/-- C9: a successful Edit or Delete touches only its target.  The store
decomposes around the single resolved book: Edit with an in-range rating
replaces exactly that book by the same book with only the rating field
changed (id, title, author and owner intact) and keeps every other book,
every user, the id counters and the session; Delete removes exactly that
book and keeps everything else. -/
theorem edit_delete_frame_condition
    (s : Store) (sess : Option Nat) (u : User) (bid : Nat) (b : Book) (r : ℚ)
    (hcu : currentUser s sess = some u)
    (hfb : findBook s bid u.id = some b)
    (hr : 0 ≤ r ∧ r ≤ 10) :
    ∃ l1 l2, s.books = l1 ++ b :: l2 ∧
      (∀ x ∈ l1, ¬(x.id = bid ∧ x.user_id = u.id)) ∧
      b.id = bid ∧ b.user_id = u.id ∧
      edit s sess bid (.post (some r))
        = ⟨{ s with books := l1 ++ { b with rating := r } :: l2 }, sess, .redirectHome, []⟩ ∧
      delete s sess bid = ⟨{ s with books := l1 ++ l2 }, sess, .redirectHome, []⟩ := by
  obtain ⟨l1, l2, heq, hl1, hb⟩ := find?_split _ _ _ hfb
  have hb2 := hb
  rw [Bool.and_eq_true, beq_iff_eq, beq_iff_eq] at hb2
  refine ⟨l1, l2, heq, ?_, hb2.1, hb2.2, ?_, ?_⟩
  · intro x hx hcon
    have hfx := hl1 x hx
    simp [hcon.1, hcon.2] at hfx
  · have hedit : edit s sess bid (.post (some r))
        = ⟨{ s with books := updateRating s.books bid u.id r }, sess, .redirectHome, []⟩ := by
      simp [edit, hcu, hfb, hr]
    rw [hedit, heq, updateRating_split l1 l2 b bid u.id r hl1 hb]
  · have hdel : delete s sess bid
        = ⟨{ s with books := deleteBook s.books bid u.id }, sess, .redirectHome, []⟩ := by
      simp [delete, hcu, hfb]
    rw [hdel, heq, deleteBook_split l1 l2 b bid u.id hl1 hb]

/-- C9 witness: user 1 owns two books; editing then deleting book 2
decomposes the shelf as the first book alone before the target, touches
only book 2, and leaves the user table and counters alone. -/
theorem edit_delete_frame_condition_witness :
    ∃ l1 l2,
      ([⟨1, "Emma", "Austen", 3, 1⟩, ⟨2, "Dune", "Herbert", 4, 1⟩] : List Book)
        = l1 ++ (⟨2, "Dune", "Herbert", 4, 1⟩ : Book) :: l2 ∧
      (∀ x ∈ l1, ¬(x.id = 2 ∧ x.user_id = (⟨1, "a@x.com", "h1", "A"⟩ : User).id)) ∧
      (⟨2, "Dune", "Herbert", 4, 1⟩ : Book).id = 2 ∧
      (⟨2, "Dune", "Herbert", 4, 1⟩ : Book).user_id = (⟨1, "a@x.com", "h1", "A"⟩ : User).id ∧
      edit ⟨[⟨1, "a@x.com", "h1", "A"⟩],
            [⟨1, "Emma", "Austen", 3, 1⟩, ⟨2, "Dune", "Herbert", 4, 1⟩], 2, 3⟩
          (some 1) 2 (.post (some 7))
        = ⟨{ (⟨[⟨1, "a@x.com", "h1", "A"⟩],
              [⟨1, "Emma", "Austen", 3, 1⟩, ⟨2, "Dune", "Herbert", 4, 1⟩], 2, 3⟩ : Store) with
             books := l1 ++ { (⟨2, "Dune", "Herbert", 4, 1⟩ : Book) with rating := 7 } :: l2 },
           some 1, .redirectHome, []⟩ ∧
      delete ⟨[⟨1, "a@x.com", "h1", "A"⟩],
              [⟨1, "Emma", "Austen", 3, 1⟩, ⟨2, "Dune", "Herbert", 4, 1⟩], 2, 3⟩
          (some 1) 2
        = ⟨{ (⟨[⟨1, "a@x.com", "h1", "A"⟩],
              [⟨1, "Emma", "Austen", 3, 1⟩, ⟨2, "Dune", "Herbert", 4, 1⟩], 2, 3⟩ : Store) with
             books := l1 ++ l2 },
           some 1, .redirectHome, []⟩ :=
  edit_delete_frame_condition
    ⟨[⟨1, "a@x.com", "h1", "A"⟩],
     [⟨1, "Emma", "Austen", 3, 1⟩, ⟨2, "Dune", "Herbert", 4, 1⟩], 2, 3⟩
    (some 1) ⟨1, "a@x.com", "h1", "A"⟩ 2 ⟨2, "Dune", "Herbert", 4, 1⟩ 7
    (by decide) (by decide) (by decide)

/-- C10: registration enforces the form-level length constraints the
spec leaves unstated — a valid form needs a password of at least 6
characters and a display name of 2 to 100 characters, and any submission
violating them just re-renders the registration form, creating no user
and establishing no session. -/
theorem register_length_constraints
    (hashFn : String → String) (s : Store) (sess : Option Nat) (inp : RegisterInput) :
    (registerFormValid inp = true →
        6 ≤ inp.password.length ∧ 2 ≤ inp.name.length ∧ inp.name.length ≤ 100) ∧
    ((inp.password.length < 6 ∨ inp.name.length < 2 ∨ 100 < inp.name.length) →
        register hashFn s sess inp = ⟨s, sess, .renderRegister, []⟩) := by
  have h1 : registerFormValid inp = true →
      6 ≤ inp.password.length ∧ 2 ≤ inp.name.length ∧ inp.name.length ≤ 100 := by
    intro hv
    unfold registerFormValid at hv
    simp only [Bool.and_eq_true, decide_eq_true_eq] at hv
    exact ⟨hv.2, hv.1.1.1.1.1.2, hv.1.1.1.1.2⟩
  refine ⟨h1, ?_⟩
  intro hbad
  cases hval : registerFormValid inp with
  | false => simp [register, hval]
  | true =>
      exfalso
      have := h1 hval
      rcases hbad with h | h | h <;> omega

/-- C10 witness: a 3-character password re-renders the registration form
against an empty store with nothing created. -/
theorem register_length_constraints_witness :
    register (fun p => "#" ++ p) ⟨[], [], 1, 1⟩ none ⟨"Bob", "b@x.com", "abc", true⟩
      = ⟨⟨[], [], 1, 1⟩, none, .renderRegister, []⟩ :=
  (register_length_constraints (fun p => "#" ++ p) ⟨[], [], 1, 1⟩ none
      ⟨"Bob", "b@x.com", "abc", true⟩).2 (Or.inl (by decide))

/-- Updating a rating never changes any title. -/
theorem updateRating_titles (l : List Book) (bid uid : Nat) (r : ℚ) :
    (updateRating l bid uid r).map Book.title = l.map Book.title := by
  induction l with
  | nil => rfl
  | cons a t ih =>
      by_cases hm : (a.id == bid && a.user_id == uid) = true
      · simp [updateRating, hm]
      · simp [updateRating, hm, ih]

/-- Deleting a book yields a sublist of the shelf. -/
theorem deleteBook_sublist (l : List Book) (bid uid : Nat) :
    (deleteBook l bid uid).Sublist l := by
  induction l with
  | nil => simp [deleteBook]
  | cons a t ih =>
      by_cases hm : (a.id == bid && a.user_id == uid) = true
      · simp only [deleteBook, hm, if_true]
        exact List.sublist_cons_self a t
      · simp only [deleteBook, hm, Bool.false_eq_true, if_false]
        exact ih.cons₂ a

/-- Distinct titles survive a rating update. -/
theorem titlesDistinct_updateRating (l : List Book) (bid uid : Nat) (r : ℚ)
    (h : TitlesDistinct l) : TitlesDistinct (updateRating l bid uid r) := by
  unfold TitlesDistinct at h ⊢
  have h2 : (l.map Book.title).Pairwise (fun a b => a ≠ b) := List.pairwise_map.mpr h
  rw [← updateRating_titles l bid uid r] at h2
  exact List.pairwise_map.mp h2

/-- Store-wide title distinctness is preserved by every request: the
only step that adds a book first checks that no book anywhere carries
the submitted title, editing only changes a rating, and deleting only
removes.  This is the reachability invariant that keeps the add
handler's `scalar_one_or_none` lookup from ever observing two rows. -/
theorem step_titlesDistinct (hashFn : String → String) (checkHash : String → String → Bool)
    (s : Store) (sess : Option Nat) (rq : Request)
    (h : TitlesDistinct s.books) :
    TitlesDistinct (step hashFn checkHash s sess rq).store.books := by
  cases rq with
  | registerR inp =>
      simp only [step]
      unfold register
      repeat' split
      all_goals exact h
  | loginR inp =>
      simp only [step]
      unfold login
      repeat' split
      all_goals exact h
  | logoutR =>
      simp only [step]
      unfold logout
      repeat' split
      all_goals exact h
  | homeR =>
      simp only [step]
      unfold home
      repeat' split
      all_goals exact h
  | addR inp =>
      cases hcu : currentUser s sess with
      | none => simp only [step, add, hcu]; exact h
      | some u =>
          by_cases hv : bookFormValid inp = true
          · cases hrat : inp.rating with
            | none => simp [step, add, hcu, hv, hrat]; exact h
            | some r =>
                cases hfil : s.books.filter (fun b => b.title == inp.title) with
                | nil =>
                    simp only [step]
                    simp [add, hcu, hv, hrat, hfil]
                    unfold TitlesDistinct at h ⊢
                    rw [List.pairwise_append]
                    refine ⟨h, List.pairwise_singleton _ _, ?_⟩
                    intro a ha b hb
                    rw [List.mem_singleton] at hb
                    subst hb
                    have := List.filter_eq_nil_iff.mp hfil a ha
                    simpa using this
                | cons b2 t2 =>
                    cases t2 with
                    | nil => simp [step, add, hcu, hv, hrat, hfil]; exact h
                    | cons b3 t3 => simp [step, add, hcu, hv, hrat, hfil]; exact h
          · simp [step, add, hcu, hv]; exact h
  | editR bid req =>
      cases hcu : currentUser s sess with
      | none => simp only [step, edit, hcu]; exact h
      | some u =>
          cases hfb : findBook s bid u.id with
          | none => simp [step, edit, hcu, hfb]; exact h
          | some b =>
              cases req with
              | get => simp [step, edit, hcu, hfb]; exact h
              | post ro =>
                  cases ro with
                  | none => simp [step, edit, hcu, hfb]; exact h
                  | some r =>
                      by_cases hr : 0 ≤ r ∧ r ≤ 10
                      · simp only [step]
                        simp [edit, hcu, hfb, hr]
                        exact titlesDistinct_updateRating s.books bid u.id r h
                      · simp [step, edit, hcu, hfb, hr]; exact h
  | deleteR bid =>
      cases hcu : currentUser s sess with
      | none => simp only [step, delete, hcu]; exact h
      | some u =>
          cases hfb : findBook s bid u.id with
          | none => simp [step, delete, hcu, hfb]; exact h
          | some b =>
              simp only [step]
              simp [delete, hcu, hfb]
              exact List.Pairwise.sublist (deleteBook_sublist s.books bid u.id) h

/-- Store-wide title distinctness is preserved by whole runs, so the
`TitlesDistinct` hypothesis of the add theorem holds in every store the
application can reach from one satisfying it (the empty store included). -/
theorem run_titlesDistinct (hashFn : String → String) (checkHash : String → String → Bool)
    (reqs : List Request) (s : Store) (sess : Option Nat)
    (h : TitlesDistinct s.books) :
    TitlesDistinct (run hashFn checkHash reqs (s, sess)).1.books := by
  induction reqs generalizing s sess with
  | nil => exact h
  | cons rq rest ih =>
      rw [show run hashFn checkHash (rq :: rest) (s, sess)
            = run hashFn checkHash rest
                ((step hashFn checkHash s sess rq).store,
                 (step hashFn checkHash s sess rq).session) from rfl]
      exact ih _ _ (step_titlesDistinct hashFn checkHash s sess rq h)
